import Mathlib

/-!
# Verification of the conversation-orchestration core

A shallow embedding, in Lean 4, of the restaurant-chatbot backend's
conversation-orchestration core, together with proofs about it:

* the action-protocol codec (`extract_action`, `get_clean_response`) of
  `app/services/gemini_service.py`, including a faithful operational model of
  the two Python regexes and of `json.loads`;
* the session store (`set_session`, `update_session`, `add_to_conversation`)
  of `app/services/redis_service.py`, with Python dicts modelled
  extensionally as `String → Option Val`;
* the order operations (`create_order`, `should_request_feedback`) of
  `app/services/order_service.py`;
* the `create_order` branch of `handle_action` in `app/routes/webhook.py`;
* the usage/cost accounting (`track_usage`) of
  `app/services/cost_tracking_service.py`.

Modelling conventions: wall-clock instants (`datetime.utcnow()`) are integer
seconds passed explicitly as a `now` argument; `datetime.isoformat()` is
abstracted to an injective rendering `isoStr`; Python floats are modelled as
exact rationals (IEEE rounding is not modelled; no property proved here
depends on it); Redis / database handles are replaced by explicit state
passing; a Python exception raised inside a modelled operation is an `Option`
failure (`none`) of that operation.
-/

/-- A Python/JSON value as produced by `json.loads` and stored in sessions.
`vNaN` and `vInf` model the `NaN` / `Infinity` / `-Infinity` constants that
Python's decoder accepts; `vFloat` carries the exact decimal value of a float
literal. -/
inductive Val where
  | vNull
  | vBool (b : Bool)
  | vInt (n : ℤ)
  | vFloat (q : ℚ)
  | vNaN
  | vInf (neg : Bool)
  | vStr (s : String)
  | vArr (l : List Val)
  | vObj (l : List (String × Val))

/-- Three consecutive backticks, the fence delimiter of both regexes. -/
def tick3 : List Char := "```".toList

/-- Python regex `\s` (ASCII range), also the character class of `str.strip()`. -/
def isPyWs (c : Char) : Bool :=
  c = ' ' || c = '\t' || c = '\n' || c = '\r' || c = Char.ofNat 11 || c = Char.ofNat 12

/-- Whitespace accepted by Python's `json` decoder: space, tab, newline, CR. -/
def isJsonWs (c : Char) : Bool :=
  c = ' ' || c = '\t' || c = '\n' || c = '\r'

/-- `str.strip()`: drop leading and trailing whitespace. -/
def pythonStrip (s : List Char) : List Char :=
  ((s.dropWhile isPyWs).reverse.dropWhile isPyWs).reverse

/-- `dropStart? p s = some r` exactly when `s = p ++ r`. -/
def dropStart? : List Char → List Char → Option (List Char)
  | [], s => some s
  | _ :: _, [] => none
  | p :: ps, c :: cs => if p = c then dropStart? ps cs else none

/-- The regex alternation `(?:action|json)`: try `action` first, then `json`
(the two branches are disjoint, so this is exactly the engine's backtracking). -/
def tagRest (s : List Char) : Option (List Char) :=
  match dropStart? "action".toList s with
  | some r => some r
  | none => dropStart? "json".toList s

/-! ## `json.loads` -/

def hexVal? (c : Char) : Option ℕ :=
  if '0' ≤ c ∧ c ≤ '9' then some (c.toNat - '0'.toNat)
  else if 'a' ≤ c ∧ c ≤ 'f' then some (c.toNat - 'a'.toNat + 10)
  else if 'A' ≤ c ∧ c ≤ 'F' then some (c.toNat - 'A'.toNat + 10)
  else none

/-- Characters of a JSON string literal after the opening quote, with the
standard escapes; raw control characters below 0x20 are rejected (strict
mode). A `\uXXXX` escape becomes the character with that code (surrogate-pair
recombination is not modelled). -/
def parseStrChars : List Char → Option (List Char × List Char)
  | [] => none
  | '"' :: r => some ([], r)
  | '\\' :: r =>
    match r with
    | '"' :: r' => (parseStrChars r').map (fun p => ('"' :: p.1, p.2))
    | '\\' :: r' => (parseStrChars r').map (fun p => ('\\' :: p.1, p.2))
    | '/' :: r' => (parseStrChars r').map (fun p => ('/' :: p.1, p.2))
    | 'b' :: r' => (parseStrChars r').map (fun p => (Char.ofNat 8 :: p.1, p.2))
    | 'f' :: r' => (parseStrChars r').map (fun p => (Char.ofNat 12 :: p.1, p.2))
    | 'n' :: r' => (parseStrChars r').map (fun p => ('\n' :: p.1, p.2))
    | 'r' :: r' => (parseStrChars r').map (fun p => ('\r' :: p.1, p.2))
    | 't' :: r' => (parseStrChars r').map (fun p => ('\t' :: p.1, p.2))
    | 'u' :: h1 :: h2 :: h3 :: h4 :: r' =>
      (hexVal? h1).bind fun a => (hexVal? h2).bind fun b =>
      (hexVal? h3).bind fun c => (hexVal? h4).bind fun d =>
      (parseStrChars r').map (fun p =>
        (Char.ofNat (((a * 16 + b) * 16 + c) * 16 + d) :: p.1, p.2))
    | _ => none
  | c :: r =>
    if c.toNat < 32 then none
    else (parseStrChars r).map (fun p => (c :: p.1, p.2))

def digitVal (c : Char) : ℕ := c.toNat - '0'.toNat

def isDigit (c : Char) : Bool := '0' ≤ c && c ≤ '9'

def digitsToNat (ds : List Char) : ℕ := ds.foldl (fun a c => a * 10 + digitVal c) 0

/-- A JSON number per Python's `NUMBER_RE`
`(-?(?:0|[1-9]\d*))(\.\d+)?([eE][-+]?\d+)?`: the longest such token is
consumed and the rest of the input is returned; an integer token yields
`vInt`, any other `vFloat` with the exact decimal value. -/
def parseNum (s : List Char) : Option (Val × List Char) :=
  let signSplit := match s with | '-' :: r => (true, r) | _ => (false, s)
  let neg := signSplit.1
  let s1 := signSplit.2
  let intPart : Option (List Char × List Char) :=
    match s1 with
    | '0' :: r => some (['0'], r)
    | c :: r =>
      if isDigit c && c ≠ '0' then some (c :: r.takeWhile isDigit, r.dropWhile isDigit)
      else none
    | [] => none
  intPart.bind fun ip2 =>
  let ip := ip2.1
  let s2 := ip2.2
  let frac : Option (List Char) × List Char :=
    match s2 with
    | '.' :: r =>
      if r.takeWhile isDigit = [] then (none, s2)
      else (some (r.takeWhile isDigit), r.dropWhile isDigit)
    | _ => (none, s2)
  let fr := frac.1
  let s3 := frac.2
  let expo : Option ℤ × List Char :=
    match s3 with
    | e :: r =>
      if e = 'e' || e = 'E' then
        let es := match r with
          | '+' :: r' => ((1 : ℤ), r')
          | '-' :: r' => ((-1 : ℤ), r')
          | _ => ((1 : ℤ), r)
        if es.2.takeWhile isDigit = [] then (none, s3)
        else (some (es.1 * (digitsToNat (es.2.takeWhile isDigit) : ℤ)), es.2.dropWhile isDigit)
      else (none, s3)
    | [] => (none, s3)
  let ex := expo.1
  let s4 := expo.2
  let sgn : ℤ := if neg then -1 else 1
  match fr, ex with
  | none, none => some (Val.vInt (sgn * (digitsToNat ip : ℤ)), s2)
  | _, _ =>
    let fd := fr.getD []
    let mant : ℤ := sgn * ((digitsToNat ip : ℤ) * (10 : ℤ) ^ fd.length + (digitsToNat fd : ℤ))
    let e10 : ℤ := (ex.getD 0) - (fd.length : ℤ)
    some (Val.vFloat ((mant : ℚ) * (10 : ℚ) ^ e10), s4)

mutual

/-- One JSON value, as scanned by Python's `json.loads`; leading whitespace is
skipped. Fuel bounds the nesting; `json_loads` supplies enough for any input. -/
def parseVal : ℕ → List Char → Option (Val × List Char)
  | 0, _ => none
  | fuel + 1, s =>
    match s.dropWhile isJsonWs with
    | 'n' :: 'u' :: 'l' :: 'l' :: r => some (Val.vNull, r)
    | 't' :: 'r' :: 'u' :: 'e' :: r => some (Val.vBool true, r)
    | 'f' :: 'a' :: 'l' :: 's' :: 'e' :: r => some (Val.vBool false, r)
    | 'N' :: 'a' :: 'N' :: r => some (Val.vNaN, r)
    | 'I' :: 'n' :: 'f' :: 'i' :: 'n' :: 'i' :: 't' :: 'y' :: r => some (Val.vInf false, r)
    | '-' :: 'I' :: 'n' :: 'f' :: 'i' :: 'n' :: 'i' :: 't' :: 'y' :: r => some (Val.vInf true, r)
    | '"' :: r => (parseStrChars r).map (fun p => (Val.vStr (String.mk p.1), p.2))
    | '[' :: r => parseArrItems fuel r true
    | '{' :: r => parseObjItems fuel r true
    | s' => parseNum s'

/-- Elements of a JSON array after `[`; `first` is true before the first one. -/
def parseArrItems : ℕ → List Char → Bool → Option (Val × List Char)
  | 0, _, _ => none
  | fuel + 1, s, first =>
    let s1 := s.dropWhile isJsonWs
    match s1, first with
    | ']' :: r, true => some (Val.vArr [], r)
    | _, _ =>
      (parseVal fuel s1).bind fun vr =>
      match vr.2.dropWhile isJsonWs with
      | ']' :: r' => some (Val.vArr [vr.1], r')
      | ',' :: r' =>
        (parseArrItems fuel r' false).bind fun tr =>
        match tr.1 with
        | Val.vArr l => some (Val.vArr (vr.1 :: l), tr.2)
        | _ => none
      | _ => none

/-- Members of a JSON object after `{`; `first` is true before the first one. -/
def parseObjItems : ℕ → List Char → Bool → Option (Val × List Char)
  | 0, _, _ => none
  | fuel + 1, s, first =>
    let s1 := s.dropWhile isJsonWs
    match s1, first with
    | '}' :: r, true => some (Val.vObj [], r)
    | '"' :: r, _ =>
      (parseStrChars r).bind fun kr =>
      match kr.2.dropWhile isJsonWs with
      | ':' :: r2 =>
        (parseVal fuel r2).bind fun vr =>
        match vr.2.dropWhile isJsonWs with
        | '}' :: r4 => some (Val.vObj [(String.mk kr.1, vr.1)], r4)
        | ',' :: r4 =>
          (parseObjItems fuel r4 false).bind fun tr =>
          match tr.1 with
          | Val.vObj l => some (Val.vObj ((String.mk kr.1, vr.1) :: l), tr.2)
          | _ => none
        | _ => none
      | _ => none
    | _, _ => none

end

/-- `json.loads`: parse one value and require only whitespace to remain;
any decode error is `none`. -/
def json_loads (s : List Char) : Option Val :=
  match parseVal (s.length + 1) s with
  | some vr => if vr.2.dropWhile isJsonWs = [] then some vr.1 else none
  | none => none

/-! ## `GeminiService.extract_action`

`re.search(r"```(?:action|json)\s*(\{[\s\S]*?\})\s*```", response)` followed by
`json.loads` of the stripped first capture group, with `None` on no match and
on decode failure. The regex is modelled operationally: at each start
position, the fences and tag are literal, `\s*` is greedy (its characters can
never satisfy the next literal, so no backtracking arises there), and the lazy
`[\s\S]*?` stops at the first `}` that is followed by whitespace and a fence. -/

/-- The lazy tail of the capture group: the shortest prefix ending in a `}`
that is followed by `\s*` and three backticks; the returned list is the group
content after the opening brace, including the closing brace. -/
def findGroupEnd : List Char → Option (List Char)
  | [] => none
  | c :: t =>
    if c = '}' && List.take 3 (t.dropWhile isPyWs) = tick3 then some ['}']
    else (findGroupEnd t).map (c :: ·)

/-- One attempted match of the `extract_action` pattern at the head of `s`,
returning the capture group `(\{[\s\S]*?\})`. -/
def matchActionAt (s : List Char) : Option (List Char) :=
  (dropStart? tick3 s).bind fun s1 =>
  (tagRest s1).bind fun s2 =>
  match s2.dropWhile isPyWs with
  | '{' :: rest => (findGroupEnd rest).map ('{' :: ·)
  | _ => none

/-- `re.search`: the match at the leftmost start position that admits one. -/
def reSearchAction : List Char → Option (List Char)
  | [] => none
  | c :: t =>
    match matchActionAt (c :: t) with
    | some g => some g
    | none => reSearchAction t

/-- `GeminiService.extract_action`. Total: no match and a failed decode both
yield `none`; no error reaches the caller. -/
def extract_action (response : String) : Option Val :=
  (reSearchAction response.toList).bind fun g => json_loads (pythonStrip g)

/-! ## `GeminiService.get_clean_response`

`re.sub(r"```(?:action|json)[\s\S]*?```", "", response).strip()`, substituting
a fixed acknowledgment when the remainder is empty or shorter than 5
characters. -/

/-- Scan for the first occurrence of three consecutive backticks; return the
remainder after them. This is the lazy `[\s\S]*?``` ` of the sub pattern. -/
def findFence : List Char → Option (List Char)
  | [] => none
  | c :: t => if List.take 3 (c :: t) = tick3 then some (List.drop 3 (c :: t)) else findFence t

/-- One attempted match of the `re.sub` pattern at the head of `s`, returning
the remainder after the match. -/
def matchSubAt (s : List Char) : Option (List Char) :=
  (dropStart? tick3 s).bind fun s1 =>
  (tagRest s1).bind fun s2 =>
  findFence s2

/-- Fueled worker for `subAll`; fuel at least the input length is enough. -/
def subAllF : ℕ → List Char → List Char
  | 0, s => s
  | _ + 1, [] => []
  | fuel + 1, c :: t =>
    match matchSubAt (c :: t) with
    | some r => subAllF fuel r
    | none => c :: subAllF fuel t

/-- `re.sub(pattern, "", s)`: remove every non-overlapping match, scanning
left to right and continuing after each removed match. -/
def subAll (s : List Char) : List Char := subAllF s.length s

/-- The fixed generic acknowledgment of `get_clean_response`. -/
def fallbackResponse : String := "I'll help you with that. How can I assist?"

/-- `GeminiService.get_clean_response`. -/
def get_clean_response (response : String) : String :=
  let clean := pythonStrip (subAll response.toList)
  if clean = [] ∨ clean.length < 5 then fallbackResponse else String.mk clean

/-! ## The specification's notion of a fenced block

For comparing the code's regex against the specification's words, a second
definition, following the specification: a fenced block tagged as action or
JSON opens with three backticks and the tag, its content is everything up to
the next three backticks, and the first such block is the relevant one. -/

/-- Remainder after the opener (fence plus tag) when one starts here. -/
def matchOpenAt (s : List Char) : Option (List Char) :=
  (dropStart? tick3 s).bind tagRest

/-- Remainder after the first fenced-block opener anywhere in `s`. -/
def findOpenTag : List Char → Option (List Char)
  | [] => none
  | c :: t =>
    match matchOpenAt (c :: t) with
    | some r => some r
    | none => findOpenTag t

/-- Content up to (excluding) the next three-backtick fence, when closed. -/
def contentToFence : List Char → Option (List Char)
  | [] => none
  | c :: t =>
    if List.take 3 (c :: t) = tick3 then some []
    else (contentToFence t).map (c :: ·)

/-- Following the specification's words: the content of the first fenced
block tagged `action` or `json`, `none` when no complete such block exists. -/
def specFirstFencedContent (response : String) : Option (List Char) :=
  (findOpenTag response.toList).bind contentToFence

/-! ## Session store (`app/services/redis_service.py`)

A stored session is a JSON object; it is modelled extensionally as a partial
map from keys to values (insertion order is irrelevant to every claim). -/

abbrev PyDict := String → Option Val

def emptyDict : PyDict := fun _ => none

/-- `dict.update`: per-key, the update wins when it has the key. -/
def dictUpdate (d u : PyDict) : PyDict := fun k => (u k).orElse fun _ => d k

def dictSet (d : PyDict) (k : String) (v : Val) : PyDict :=
  fun k' => if k' = k then some v else d k'

/-- Injective stand-in for `datetime.utcnow().isoformat()` at instant `t`. -/
def isoStr (t : ℤ) : String := toString t

/-- `RedisService.set_session`: stamps `last_activity` with the write time,
then stores the JSON-serialised dict (TTL is not part of any claim here). -/
def set_session (session_data : PyDict) (now : ℤ) : PyDict :=
  dictSet session_data "last_activity" (Val.vStr (isoStr now))

/-- `RedisService.update_session`: read the session (or start from `{}`),
`dict.update` with the partial, write back through `set_session`. -/
def update_session (stored : Option PyDict) (updates : PyDict) (now : ℤ) : PyDict :=
  set_session (dictUpdate (stored.getD emptyDict) updates) now

/-- One transcript entry, as appended by `add_to_conversation`. -/
def convEntry (role message : String) (now : ℤ) : Val :=
  Val.vObj [("role", Val.vStr role), ("message", Val.vStr message),
    ("timestamp", Val.vStr (isoStr now))]

/-- The conversation list of a stored session: `[]` when the session or the
key is absent, `none` when the key holds a non-list (in which case the Python
`.append` raises and nothing is written). -/
def convListOf (stored : Option PyDict) : Option (List Val) :=
  match stored with
  | none => some []
  | some d =>
    match d "conversation" with
    | none => some []
    | some (Val.vArr l) => some l
    | some _ => none

/-- The last `n` elements of a list (`l[-n:]`, and `l` itself when shorter). -/
def lastN (n : ℕ) (l : List α) : List α := l.drop (l.length - n)

/-- `RedisService.add_to_conversation`: read the session (or `{}`), append a
`{role, message, timestamp}` entry, truncate to the last 20 entries when more
than 20, write back through `set_session`. `none` models the raise on a
non-list `conversation` value. -/
def add_to_conversation (stored : Option PyDict) (role message : String) (now : ℤ) :
    Option PyDict :=
  (convListOf stored).map fun conv0 =>
    let session := stored.getD emptyDict
    let conv := conv0 ++ [convEntry role message now]
    let conv2 := if 20 < conv.length then conv.drop (conv.length - 20) else conv
    set_session (dictSet session "conversation" (Val.vArr conv2)) now

/-- A sequence of `add_to_conversation` calls; `none` when any of them raises. -/
def appendAll : Option PyDict → List (String × String × ℤ) → Option PyDict
  | st, [] => st.getD emptyDict |> some
  | st, e :: rest => (add_to_conversation st e.1 e.2.1 e.2.2).bind fun d => appendAll (some d) rest

/-! ## Orders (`app/models/database_models.py`, `app/services/order_service.py`) -/

inductive OrderType where
  | dine_in
  | takeaway
  | delivery
deriving DecidableEq

def OrderType.value : OrderType → String
  | .dine_in => "dine_in"
  | .takeaway => "takeaway"
  | .delivery => "delivery"

/-- `OrderType(s)`: the enum member with value `s`, `none` on `ValueError`. -/
def orderTypeFromString (s : String) : Option OrderType :=
  if s = "dine_in" then some .dine_in
  else if s = "takeaway" then some .takeaway
  else if s = "delivery" then some .delivery
  else none

inductive OrderStatus where
  | pending
  | preparing
  | ready
  | completed
  | cancelled
deriving DecidableEq

/-- A row of the `orders` table. `items` keeps the Python value handed to
`json.dumps`; `total_price` and delivery fields keep the command's values. -/
structure DbOrder where
  id : ℤ
  customer_id : ℤ
  order_type : OrderType
  status : OrderStatus
  items : Val
  total_price : Val
  delivery_address : Option Val
  delivery_latitude : Option Val
  delivery_longitude : Option Val
  estimated_completion_time : Option ℤ
  completed_at : Option ℤ
  feedback_requested : Bool
  feedback : Option String
  created_at : ℤ

/-- The fixed per-type preparation durations of `OrderService.create_order`,
in minutes. -/
def minutes_map : OrderType → ℤ
  | .dine_in => 20
  | .takeaway => 15
  | .delivery => 45

/-- `OrderService.create_order` at instant `now`, with `orderId` the id the
database assigns. -/
def create_order (now orderId customerId : ℤ) (order_type : OrderType)
    (items total_price : Val)
    (delivery_address delivery_latitude delivery_longitude : Option Val) : DbOrder :=
  { id := orderId
    customer_id := customerId
    order_type := order_type
    status := OrderStatus.pending
    items := items
    total_price := total_price
    delivery_address := delivery_address
    delivery_latitude := delivery_latitude
    delivery_longitude := delivery_longitude
    estimated_completion_time := some (now + 60 * minutes_map order_type)
    completed_at := none
    feedback_requested := false
    feedback := none
    created_at := now }

/-- Default of `Settings.FEEDBACK_DELAY_MINUTES`. -/
def defaultFeedbackDelayMinutes : ℤ := 30

/-- Python truthiness of an optional string (`order.feedback`). -/
def truthyOptStr : Option String → Bool
  | none => false
  | some s => s ≠ ""

/-- `OrderService.should_request_feedback` at instant `now`, with the
configured `FEEDBACK_DELAY_MINUTES`. -/
def should_request_feedback (delayMinutes now : ℤ) (o : DbOrder) : Bool :=
  if o.feedback_requested || truthyOptStr o.feedback then false
  else
    match o.completed_at with
    | none => false
    | some t => decide (60 * delayMinutes ≤ now - t)

/-! ## The `create_order` branch of `handle_action` (`app/routes/webhook.py`) -/

/-- A row of the `customers` table (the fields `handle_action` reads). -/
structure Customer where
  id : ℤ
  phone_number : String
  name : Option String
  address : Option String
  latitude : Option ℚ
  longitude : Option ℚ

/-- Python truthiness of a JSON value. -/
def pyTruthy : Val → Bool
  | .vNull => false
  | .vBool b => b
  | .vInt n => decide (n ≠ 0)
  | .vFloat q => decide (q ≠ 0)
  | .vNaN => true
  | .vInf _ => true
  | .vStr s => decide (s ≠ "")
  | .vArr l => !l.isEmpty
  | .vObj l => !l.isEmpty

/-- `x or y` on `dict.get` results: `y` when `x` is absent or falsy. -/
def pyOr (x y : Option Val) : Option Val :=
  match x with
  | some v => if pyTruthy v then some v else y
  | none => y

/-- `dict.get` on a decoded JSON object (duplicate keys: last wins, as in the
Python dict the decoder builds). -/
def objGet (l : List (String × Val)) (k : String) : Option Val :=
  (l.filterMap fun p => if p.1 = k then some p.2 else none).getLast?

/-- `session.get("location", {})` as a JSON object: `{}` when absent, `none`
when the stored value is not a dict (the subsequent `.get` would raise and
the action would be dropped). -/
def sessionLocationObj (session : PyDict) : Option (List (String × Val)) :=
  match session "location" with
  | none => some []
  | some (Val.vObj l) => some l
  | some _ => none

/-- `OrderType(data.get("order_type", "dine_in"))`: absent key defaults to
dine-in; a non-string or unknown value raises `ValueError` (`none`). -/
def orderTypeFromVal : Option Val → Option OrderType
  | none => some OrderType.dine_in
  | some (Val.vStr s) => orderTypeFromString s
  | some _ => none

/-- Lines 246-256 of `webhook.py`: the delivery fields of a delivery order.
`delivery_address = data.get("address") or customer.address`;
`delivery_lat = location.get("latitude") or customer.latitude`;
`delivery_lon = location.get("longitude") or customer.longitude`. -/
def resolveDeliveryFields (data : List (String × Val)) (session : PyDict) (cust : Customer) :
    Option (Option Val × Option Val × Option Val) :=
  (sessionLocationObj session).map fun loc =>
    (pyOr (objGet data "address") (cust.address.map Val.vStr),
     pyOr (objGet loc "latitude") (cust.latitude.map Val.vFloat),
     pyOr (objGet loc "longitude") (cust.longitude.map Val.vFloat))

/-- Following the specification's words: the delivery latitude resolved by
the chain "explicit value in the command → session's last known location →
customer's stored profile value". -/
def specChainLatitude (data : List (String × Val)) (session : PyDict) (cust : Customer) :
    Option Val :=
  let loc := (sessionLocationObj session).getD []
  pyOr (objGet data "latitude")
    (pyOr (objGet loc "latitude") (cust.latitude.map Val.vFloat))

/-- The session partial written by the `create_order` branch. -/
def orderSessionUpdates (orderId : ℤ) (items total_price : Val) (ot : OrderType) (now : ℤ) :
    PyDict :=
  fun k =>
    if k = "current_order" then some Val.vNull
    else if k = "last_order" then
      some (Val.vObj [("id", Val.vInt orderId), ("items", items), ("total", total_price),
        ("type", Val.vStr ot.value), ("created_at", Val.vStr (isoStr now))])
    else none

/-- The `create_order` branch of `handle_action`: parse the order type,
resolve delivery fields when the order is a delivery, create the order, and
replace `current_order` / `last_order` in the session through
`update_session`. `none` models a raised (and caught) exception, in which
case no order is created and no session write happens. -/
def handleCreateOrder (data : List (String × Val)) (cust : Customer) (session : PyDict)
    (now orderId : ℤ) : Option (DbOrder × PyDict) :=
  (orderTypeFromVal (objGet data "order_type")).bind fun order_type =>
  let items := (objGet data "items").getD (Val.vArr [])
  let total_price := (objGet data "total_price").getD (Val.vInt 0)
  let deliv : Option (Option Val × Option Val × Option Val) :=
    if order_type = OrderType.delivery then resolveDeliveryFields data session cust
    else some (none, none, none)
  deliv.bind fun dlv =>
  let order := create_order now orderId cust.id order_type items total_price dlv.1 dlv.2.1 dlv.2.2
  some (order,
    update_session (some session) (orderSessionUpdates orderId items total_price order_type now) now)

/-! ## Usage accounting (`app/services/cost_tracking_service.py`) -/

/-- One Redis hash of counters plus its expiry (seconds), as set by `expire`. -/
structure UsageWindow where
  input_tokens : ℤ
  output_tokens : ℤ
  cost_usd : ℚ
  cost_pkr : ℚ
  requests : ℤ
  expiry : Option ℤ
deriving DecidableEq

def emptyWindow : UsageWindow :=
  { input_tokens := 0, output_tokens := 0, cost_usd := 0, cost_pkr := 0,
    requests := 0, expiry := none }

/-- The daily, monthly and per-identity-daily windows a `track_usage` call
touches. -/
structure CostState where
  daily : UsageWindow
  monthly : UsageWindow
  perUser : UsageWindow
deriving DecidableEq

def initialCostState : CostState :=
  { daily := emptyWindow, monthly := emptyWindow, perUser := emptyWindow }

/-- `INPUT_COST_PER_1M = 0.075` USD. -/
def INPUT_COST_PER_1M : ℚ := 3 / 40

/-- `OUTPUT_COST_PER_1M = 0.30` USD. -/
def OUTPUT_COST_PER_1M : ℚ := 3 / 10

/-- `USD_TO_PKR = 280`. -/
def USD_TO_PKR : ℚ := 280

/-- `CostTrackingService.track_usage`: the cost formula followed by the exact
sequence of `hincrby` / `hincrbyfloat` / `expire` calls of lines 56-75. The
per-identity window gets no `cost_usd` and no `requests` increment. -/
def track_usage (input_tokens output_tokens : ℤ) (st : CostState) : CostState :=
  let input_cost_usd : ℚ := (input_tokens : ℚ) / 1000000 * INPUT_COST_PER_1M
  let output_cost_usd : ℚ := (output_tokens : ℚ) / 1000000 * OUTPUT_COST_PER_1M
  let total_cost_usd := input_cost_usd + output_cost_usd
  let total_cost_pkr := total_cost_usd * USD_TO_PKR
  let d0 := st.daily
  let d1 := { d0 with input_tokens := d0.input_tokens + input_tokens }
  let d2 := { d1 with output_tokens := d1.output_tokens + output_tokens }
  let d3 := { d2 with cost_usd := d2.cost_usd + total_cost_usd }
  let d4 := { d3 with cost_pkr := d3.cost_pkr + total_cost_pkr }
  let d5 := { d4 with requests := d4.requests + 1 }
  let d6 := { d5 with expiry := some (86400 * 90) }
  let m0 := st.monthly
  let m1 := { m0 with input_tokens := m0.input_tokens + input_tokens }
  let m2 := { m1 with output_tokens := m1.output_tokens + output_tokens }
  let m3 := { m2 with cost_usd := m2.cost_usd + total_cost_usd }
  let m4 := { m3 with cost_pkr := m3.cost_pkr + total_cost_pkr }
  let m5 := { m4 with requests := m4.requests + 1 }
  let m6 := { m5 with expiry := some (86400 * 365) }
  let u0 := st.perUser
  let u1 := { u0 with input_tokens := u0.input_tokens + input_tokens }
  let u2 := { u1 with output_tokens := u1.output_tokens + output_tokens }
  let u3 := { u2 with cost_pkr := u2.cost_pkr + total_cost_pkr }
  let u4 := { u3 with expiry := some (86400 * 30) }
  { daily := d6, monthly := m6, perUser := u4 }

/-- Following the specification's words: one recording into a window
accumulates input tokens, output tokens, the request count and both currency
totals, and sets the window's expiry. -/
def specRecordWindow (input_tokens output_tokens : ℤ) (ttl : ℤ) (w : UsageWindow) :
    UsageWindow :=
  let usd : ℚ := (input_tokens : ℚ) / 1000000 * INPUT_COST_PER_1M
    + (output_tokens : ℚ) / 1000000 * OUTPUT_COST_PER_1M
  { input_tokens := w.input_tokens + input_tokens
    output_tokens := w.output_tokens + output_tokens
    cost_usd := w.cost_usd + usd
    cost_pkr := w.cost_pkr + usd * USD_TO_PKR
    requests := w.requests + 1
    expiry := some ttl }

/-! ## Concrete inputs used by witnesses and counterexamples -/

/-- The backtick character. -/
def btk : Char := Char.ofNat 96

/-- A list without backticks (so it contains no fence). -/
def btFree (s : List Char) : Bool := s.all fun c => c ≠ btk

/-- A dict with a single key. -/
def dictSingle (k : String) (v : Val) : PyDict :=
  fun k' => if k' = k then some v else none

/-- A response whose first fenced block does not decode but whose second one
does: the regex skips a tagged block whose content is not brace-delimited. -/
def c1CexInput : String := "```json\nhello\n``` ```json\n\x7b\"a\": 1\x7d\n```"

/-- An order completed at instant 0 with no feedback activity. -/
def completedOrder : DbOrder :=
  { id := 1, customer_id := 1, order_type := OrderType.takeaway,
    status := OrderStatus.completed, items := Val.vArr [], total_price := Val.vInt 0,
    delivery_address := none, delivery_latitude := none, delivery_longitude := none,
    estimated_completion_time := none, completed_at := some 0,
    feedback_requested := false, feedback := none, created_at := 0 }

/-- The same order after feedback has been requested. -/
def requestedOrder : DbOrder := { completedOrder with feedback_requested := true }

/-- A delivery command that carries explicit coordinates. -/
def cexDeliveryData : List (String × Val) :=
  [("order_type", Val.vStr "delivery"), ("latitude", Val.vInt 5), ("longitude", Val.vInt 5)]

/-- A session whose last shared location differs from the command's. -/
def cexDeliverySession : PyDict :=
  dictSingle "location" (Val.vObj [("latitude", Val.vInt 6), ("longitude", Val.vInt 6)])

/-- A customer profile with yet other coordinates. -/
def cexDeliveryCustomer : Customer :=
  { id := 1, phone_number := "p", name := none, address := none,
    latitude := some 7, longitude := some 7 }

/-! # Supporting lemmas -/

theorem dropStart?_length {p s r : List Char} (h : dropStart? p s = some r) :
    r.length + p.length = s.length := by
  induction p generalizing s with
  | nil => simp [dropStart?] at h; simp [h]
  | cons a ps ih =>
    cases s with
    | nil => simp [dropStart?] at h
    | cons c cs =>
      simp only [dropStart?] at h
      split at h
      · have := ih h; simp only [List.length_cons]; omega
      · exact absurd h (by simp)

theorem findFence_length {s r : List Char} (h : findFence s = some r) :
    r.length + 3 ≤ s.length := by
  induction s with
  | nil => simp [findFence] at h
  | cons c t ih =>
    simp only [findFence] at h
    split at h
    · rename_i hc
      have h3 : (List.take 3 (c :: t)).length = 3 := by rw [hc]; rfl
      rw [List.length_take] at h3
      simp only [Option.some.injEq] at h
      subst h
      rw [List.length_drop]
      omega
    · have := ih h; simp only [List.length_cons]; omega

theorem tagRest_length {s r : List Char} (h : tagRest s = some r) : r.length ≤ s.length := by
  unfold tagRest at h
  split at h
  · rename_i h'
    simp only [Option.some.injEq] at h
    subst h
    have := dropStart?_length h'
    omega
  · have := dropStart?_length h
    omega

theorem matchSubAt_length {s r : List Char} (h : matchSubAt s = some r) :
    r.length < s.length := by
  simp only [matchSubAt, Option.bind_eq_some] at h
  obtain ⟨s1, h1, s2, h3, h4⟩ := h
  have l1 := dropStart?_length h1
  have l3 := tagRest_length h3
  have l4 := findFence_length h4
  simp only [tick3, String.toList] at l1
  omega

theorem subAllF_fuel {f g : ℕ} (s : List Char) (hf : s.length ≤ f) (hg : s.length ≤ g) :
    subAllF f s = subAllF g s := by
  induction f using Nat.strong_induction_on generalizing s g with
  | _ f ih =>
    cases f with
    | zero =>
      have hs : s = [] := by cases s <;> simp_all
      subst hs
      cases g <;> simp [subAllF]
    | succ f' =>
      cases g with
      | zero => cases s <;> simp_all [subAllF]
      | succ g' =>
        cases s with
        | nil => simp [subAllF]
        | cons c t =>
          simp only [subAllF]
          cases h : matchSubAt (c :: t) with
          | some r =>
            have hr := matchSubAt_length h
            simp only [List.length_cons] at hf hg hr
            exact @ih f' (by omega) g' r (by omega) (by omega)
          | none =>
            simp only [List.length_cons] at hf hg
            have hrec := @ih f' (by omega) g' t (by omega) (by omega)
            simp [hrec]

theorem tick3_eq : tick3 = btk :: btk :: btk :: [] := rfl

theorem matchSubAt_cons_none {c : Char} (t : List Char) (hc : c ≠ btk) :
    matchSubAt (c :: t) = none := by
  unfold matchSubAt
  rw [tick3_eq]
  unfold dropStart?
  rw [if_neg (fun h => hc h.symm)]
  rfl

theorem subAll_cons_none {c : Char} {t : List Char} (h : matchSubAt (c :: t) = none) :
    subAll (c :: t) = c :: subAll t := by
  show subAllF (t.length + 1) (c :: t) = c :: subAll t
  unfold subAllF
  rw [h]
  rfl

theorem subAll_append_btfree {p : List Char} (hp : btFree p = true) (s : List Char) :
    subAll (p ++ s) = p ++ subAll s := by
  induction p with
  | nil => rfl
  | cons c ps ih =>
    simp only [btFree, List.all_cons, Bool.and_eq_true, decide_eq_true_eq] at hp
    have hps : btFree ps = true := hp.2
    rw [List.cons_append, subAll_cons_none (matchSubAt_cons_none _ hp.1), ih hps]
    rfl

theorem subAll_btfree {s : List Char} (hs : btFree s = true) : subAll s = s := by
  induction s with
  | nil => rfl
  | cons c t ih =>
    simp only [btFree, List.all_cons, Bool.and_eq_true, decide_eq_true_eq] at hs
    have ht : btFree t = true := hs.2
    rw [subAll_cons_none (matchSubAt_cons_none _ hs.1), ih ht]

theorem dropStart?_append (p s : List Char) : dropStart? p (p ++ s) = some s := by
  induction p with
  | nil => rfl
  | cons c ps ih => simpa [dropStart?] using ih

theorem tagRest_action (s : List Char) : tagRest ("action".toList ++ s) = some s := by
  unfold tagRest
  rw [dropStart?_append]

theorem tagRest_json (s : List Char) : tagRest ("json".toList ++ s) = some s := by
  unfold tagRest
  rw [show dropStart? "action".toList ("json".toList ++ s) = none from rfl]
  rw [dropStart?_append]

theorem findFence_btfree_append {j : List Char} (hj : btFree j = true) (rest : List Char) :
    findFence (j ++ (tick3 ++ rest)) = some rest := by
  induction j with
  | nil => rfl
  | cons c j' ih =>
    simp only [btFree, List.all_cons, Bool.and_eq_true, decide_eq_true_eq] at hj
    have hj' : btFree j' = true := hj.2
    rw [List.cons_append]
    unfold findFence
    rw [if_neg, ih hj']
    intro heq
    have hstep : List.take 3 (c :: (j' ++ (tick3 ++ rest)))
        = c :: List.take 2 (j' ++ (tick3 ++ rest)) := rfl
    rw [hstep, tick3_eq] at heq
    exact hj.1 (List.cons.injEq .. |>.mp heq).1

theorem matchSubAt_block {t : List Char} (ht : t = "action".toList ∨ t = "json".toList)
    {j : List Char} (hj : btFree j = true) (rest : List Char) :
    matchSubAt (tick3 ++ (t ++ (j ++ (tick3 ++ rest)))) = some rest := by
  unfold matchSubAt
  rw [dropStart?_append]
  simp only [Option.some_bind]
  rcases ht with h | h <;> subst h
  · rw [tagRest_action]
    simp only [Option.some_bind]
    exact findFence_btfree_append hj rest
  · rw [tagRest_json]
    simp only [Option.some_bind]
    exact findFence_btfree_append hj rest

theorem subAll_cons_some {c : Char} {t r : List Char} (h : matchSubAt (c :: t) = some r) :
    subAll (c :: t) = subAll r := by
  show subAllF (t.length + 1) (c :: t) = subAll r
  unfold subAllF
  rw [h]
  have hr : r.length ≤ t.length := by
    have := matchSubAt_length h
    simp only [List.length_cons] at this
    omega
  exact subAllF_fuel r hr (le_refl _)

theorem subAll_block {t : List Char} (ht : t = "action".toList ∨ t = "json".toList)
    {j : List Char} (hj : btFree j = true) (rest : List Char) :
    subAll (tick3 ++ (t ++ (j ++ (tick3 ++ rest)))) = subAll rest := by
  have hm := matchSubAt_block ht hj rest
  exact subAll_cons_some
    (show matchSubAt (btk :: ((btk :: btk :: []) ++ (t ++ (j ++ (tick3 ++ rest))))) = some rest
      from hm)

theorem findOpenTag_cons {c : Char} {t : List Char} (h : findOpenTag (c :: t) = none) :
    matchOpenAt (c :: t) = none ∧ findOpenTag t = none := by
  rw [findOpenTag] at h
  cases hm : matchOpenAt (c :: t) with
  | some r => rw [hm] at h; exact absurd h (by simp)
  | none => rw [hm] at h; exact ⟨rfl, h⟩

theorem matchSubAt_none_of_open {s : List Char} (h : matchOpenAt s = none) :
    matchSubAt s = none := by
  unfold matchOpenAt at h
  unfold matchSubAt
  cases h1 : dropStart? tick3 s with
  | none => rfl
  | some s1 =>
    rw [h1] at h
    simp only [Option.some_bind] at h ⊢
    rw [h]
    rfl

theorem subAll_no_opener {s : List Char} (h : findOpenTag s = none) : subAll s = s := by
  induction s with
  | nil => rfl
  | cons c t ih =>
    obtain ⟨h1, h2⟩ := findOpenTag_cons h
    rw [subAll_cons_none (matchSubAt_none_of_open h1), ih h2]

theorem reSearchAction_leftmost {s g : List Char} (h : reSearchAction s = some g) :
    ∃ i, matchActionAt (s.drop i) = some g ∧ ∀ j < i, matchActionAt (s.drop j) = none := by
  induction s with
  | nil => simp [reSearchAction] at h
  | cons c t ih =>
    rw [reSearchAction] at h
    cases hm : matchActionAt (c :: t) with
    | some g' =>
      rw [hm] at h
      refine ⟨0, ?_, ?_⟩
      · simpa [hm] using h
      · intro j hj; omega
    | none =>
      rw [hm] at h
      obtain ⟨i, hi, hlt⟩ := ih h
      refine ⟨i + 1, by simpa using hi, ?_⟩
      intro j hj
      cases j with
      | zero => simpa using hm
      | succ j' =>
        have := hlt j' (by omega)
        simpa using this

theorem lastN_length_le (n : ℕ) (l : List α) : (lastN n l).length ≤ n := by
  unfold lastN
  rw [List.length_drop]
  omega

theorem lastN_of_length_le {n : ℕ} {l : List α} (h : l.length ≤ n) : lastN n l = l := by
  unfold lastN
  have : l.length - n = 0 := by omega
  rw [this, List.drop_zero]

theorem lastN_absorb (n : ℕ) (x y : List α) :
    lastN n (lastN n x ++ y) = lastN n (x ++ y) := by
  by_cases h : x.length ≤ n
  · rw [lastN_of_length_le h]
  · push_neg at h
    have hdx : (x.drop (x.length - n)).length = n := by
      rw [List.length_drop]; omega
    unfold lastN
    rw [List.length_append, List.length_append, hdx]
    have h2 : n + y.length - n = y.length := by omega
    have h3 : x.length + y.length - n = x.length - n + y.length := by omega
    rw [h2, h3]
    have h5 : (x ++ y).drop (x.length - n) = x.drop (x.length - n) ++ y :=
      List.drop_append_of_le_length (by omega)
    rw [show (x ++ y).drop (x.length - n + y.length)
        = ((x ++ y).drop (x.length - n)).drop y.length
      from (List.drop_drop y.length (x.length - n) (x ++ y)).symm]
    rw [h5]

theorem trunc_eq_lastN (x : List α) :
    (if 20 < x.length then x.drop (x.length - 20) else x) = lastN 20 x := by
  unfold lastN
  split
  · rfl
  · rename_i h
    have : x.length - 20 = 0 := by omega
    rw [this, List.drop_zero]

theorem add_to_conversation_step {stored : Option PyDict} {l : List Val}
    (h : convListOf stored = some l) (role message : String) (now : ℤ) :
    add_to_conversation stored role message now
      = some (set_session (dictSet (stored.getD emptyDict) "conversation"
          (Val.vArr (lastN 20 (l ++ [convEntry role message now])))) now) := by
  have h0 : add_to_conversation stored role message now
      = some (set_session (dictSet (stored.getD emptyDict) "conversation"
          (Val.vArr (if 20 < (l ++ [convEntry role message now]).length
              then (l ++ [convEntry role message now]).drop
                ((l ++ [convEntry role message now]).length - 20)
              else l ++ [convEntry role message now]))) now) := by
    unfold add_to_conversation
    rw [h]
    rfl
  rw [h0, trunc_eq_lastN]

theorem convListOf_after_set (s : PyDict) (v : List Val) (t : ℤ) :
    convListOf (some (set_session (dictSet s "conversation" (Val.vArr v)) t)) = some v := by
  rfl

/-! # The claims -/

/-- C1 (corrected). `extract_action` returns the decoded object of the first
match of its regex — a fenced `action`/`json` block whose content is
brace-delimited — skipping tagged fenced blocks whose content is not; it
returns `none`, never an error, both when no such match exists and when the
matched content fails to decode as JSON. The first-match clause is made
precise: a successful search result is the match at the leftmost admitting
position. -/
theorem extract_action_first_regex_match (r : String) :
    (reSearchAction r.toList = none → extract_action r = none)
    ∧ ∀ g, reSearchAction r.toList = some g →
        extract_action r = json_loads (pythonStrip g)
        ∧ ∃ i, matchActionAt (r.toList.drop i) = some g
            ∧ ∀ j < i, matchActionAt (r.toList.drop j) = none := by
  constructor
  · intro h
    unfold extract_action
    rw [h]
    rfl
  · intro g h
    constructor
    · unfold extract_action
      rw [h]
      rfl
    · exact reSearchAction_leftmost h

/-- Witness for C1: a response with one valid block decodes to its object,
and a block-free response yields `none`. -/
theorem extract_action_first_regex_match_witness :
    extract_action "x ```json  \x7b\"a\": 1\x7d ```" = some (Val.vObj [("a", Val.vInt 1)])
    ∧ extract_action "nothing here" = none := by
  constructor
  · have h := (extract_action_first_regex_match "x ```json  \x7b\"a\": 1\x7d ```").2
      "\x7b\"a\": 1\x7d".toList (by rfl)
    rw [h.1]
    rfl
  · exact (extract_action_first_regex_match "nothing here").1 (by rfl)

/-- Counterexample to C1 as stated: in `c1CexInput` the first fenced block
tagged `json` has content `\nhello\n`, which fails to decode, so the claim
demands `none`; but the code's regex skips that block (its content is not
brace-delimited) and returns the decoded object of the second block. -/
theorem extract_action_first_block_cex :
    specFirstFencedContent c1CexInput = some "\nhello\n".toList
    ∧ json_loads "\nhello\n".toList = none
    ∧ extract_action c1CexInput = some (Val.vObj [("a", Val.vInt 1)])
    ∧ extract_action c1CexInput ≠ none := by
  refine ⟨rfl, rfl, rfl, ?_⟩
  intro h
  rw [show extract_action c1CexInput = some (Val.vObj [("a", Val.vInt 1)]) from rfl] at h
  simp at h

/-- C2 (corrected). `get_clean_response` removes every fenced `action`/`json`
block — not only the first, and regardless of whether the content is valid
JSON — and trims whitespace; for block-free text the result is the trimmed
input. Both statements hold provided the remaining prose has at least 5
characters (otherwise the C3 fallback replaces it). -/
theorem get_clean_response_strips_all_blocks :
    (∀ pre mid post j1 j2 t1 t2 : List Char,
      (t1 = "action".toList ∨ t1 = "json".toList) →
      (t2 = "action".toList ∨ t2 = "json".toList) →
      btFree pre = true → btFree mid = true → btFree post = true →
      btFree j1 = true → btFree j2 = true →
      5 ≤ (pythonStrip (pre ++ mid ++ post)).length →
      get_clean_response (String.mk (pre ++ tick3 ++ t1 ++ j1 ++ tick3
          ++ mid ++ tick3 ++ t2 ++ j2 ++ tick3 ++ post))
        = String.mk (pythonStrip (pre ++ mid ++ post)))
    ∧ ∀ r : String, findOpenTag r.toList = none →
        5 ≤ (pythonStrip r.toList).length →
        get_clean_response r = String.mk (pythonStrip r.toList) := by
  constructor
  · intro pre mid post j1 j2 t1 t2 ht1 ht2 hpre hmid hpost hj1 hj2 hlen
    have hassoc : pre ++ tick3 ++ t1 ++ j1 ++ tick3 ++ mid ++ tick3 ++ t2 ++ j2 ++ tick3 ++ post
        = pre ++ (tick3 ++ (t1 ++ (j1 ++ (tick3 ++ (mid ++ (tick3 ++ (t2 ++ (j2 ++ (tick3
          ++ post))))))))) := by
      simp [List.append_assoc]
    have hsub : subAll (pre ++ tick3 ++ t1 ++ j1 ++ tick3
        ++ mid ++ tick3 ++ t2 ++ j2 ++ tick3 ++ post) = pre ++ mid ++ post := by
      rw [hassoc]
      rw [subAll_append_btfree hpre]
      rw [subAll_block ht1 hj1]
      rw [subAll_append_btfree hmid]
      rw [subAll_block ht2 hj2]
      rw [subAll_btfree hpost]
      rw [List.append_assoc]
    have hdef : get_clean_response (String.mk (pre ++ tick3 ++ t1 ++ j1 ++ tick3
        ++ mid ++ tick3 ++ t2 ++ j2 ++ tick3 ++ post))
        = (if pythonStrip (subAll (pre ++ tick3 ++ t1 ++ j1 ++ tick3
              ++ mid ++ tick3 ++ t2 ++ j2 ++ tick3 ++ post)) = []
            ∨ (pythonStrip (subAll (pre ++ tick3 ++ t1 ++ j1 ++ tick3
              ++ mid ++ tick3 ++ t2 ++ j2 ++ tick3 ++ post))).length < 5
          then fallbackResponse
          else String.mk (pythonStrip (subAll (pre ++ tick3 ++ t1 ++ j1 ++ tick3
              ++ mid ++ tick3 ++ t2 ++ j2 ++ tick3 ++ post)))) := rfl
    rw [hdef, hsub, if_neg]
    intro hor
    rcases hor with he | hlt
    · rw [he] at hlen
      simp at hlen
    · omega
  · intro r hopen hlen
    have hsub : subAll r.toList = r.toList := subAll_no_opener hopen
    have hdef : get_clean_response r
        = (if pythonStrip (subAll r.toList) = [] ∨ (pythonStrip (subAll r.toList)).length < 5
          then fallbackResponse
          else String.mk (pythonStrip (subAll r.toList))) := rfl
    rw [hdef, hsub, if_neg]
    intro hor
    rcases hor with he | hlt
    · rw [he] at hlen
      simp at hlen
    · omega

/-- Witness for C2: a response with two fenced blocks (the first containing
malformed JSON) keeps exactly the surrounding prose, and block-free text is
returned trimmed. -/
theorem get_clean_response_strips_all_blocks_witness :
    get_clean_response (String.mk ("Your order ".toList ++ tick3 ++ "json".toList
        ++ " {not valid json} ".toList ++ tick3 ++ "is noted ".toList ++ tick3
        ++ "action".toList ++ " \x7b\"x\":1\x7d ".toList ++ tick3 ++ "thanks!".toList))
      = String.mk (pythonStrip ("Your order ".toList ++ "is noted ".toList ++ "thanks!".toList))
    ∧ get_clean_response "just plain prose"
      = String.mk (pythonStrip "just plain prose".toList) := by
  constructor
  · exact get_clean_response_strips_all_blocks.1 "Your order ".toList "is noted ".toList
      "thanks!".toList " {not valid json} ".toList " \x7b\"x\":1\x7d ".toList
      "json".toList "action".toList (Or.inr rfl) (Or.inl rfl)
      (by decide) (by decide) (by decide) (by decide) (by decide) (by decide)
  · exact get_clean_response_strips_all_blocks.2 "just plain prose" (by rfl) (by decide)

/-- Counterexample to C2 as stated: `"Hi"` contains no fenced block, yet
`get_clean_response` does not return the trimmed input — the sub-5-character
fallback replaces it. -/
theorem get_clean_response_short_input_cex :
    findOpenTag "Hi".toList = none
    ∧ pythonStrip "Hi".toList = "Hi".toList
    ∧ get_clean_response "Hi" = fallbackResponse
    ∧ get_clean_response "Hi" ≠ String.mk (pythonStrip "Hi".toList) := by
  refine ⟨rfl, rfl, rfl, by decide⟩

/-- C3 (confirmed). When the prose left after stripping all fenced blocks and
trimming is empty or shorter than 5 characters, `get_clean_response` returns
the fixed generic acknowledgment; its result is never the empty string. -/
theorem get_clean_response_fallback (r : String) :
    ((pythonStrip (subAll r.toList)).length < 5 → get_clean_response r = fallbackResponse)
    ∧ get_clean_response r ≠ "" := by
  constructor
  · intro h
    unfold get_clean_response
    rw [if_pos (Or.inr h)]
  · have hdef : get_clean_response r =
        if (pythonStrip (subAll r.toList)) = [] ∨ (pythonStrip (subAll r.toList)).length < 5
        then fallbackResponse else String.mk (pythonStrip (subAll r.toList)) := rfl
    rw [hdef]
    by_cases h : (pythonStrip (subAll r.toList)) = [] ∨ (pythonStrip (subAll r.toList)).length < 5
    · rw [if_pos h]; decide
    · rw [if_neg h]
      push_neg at h
      obtain ⟨h1, h2⟩ := h
      intro heq
      have h0 : (pythonStrip (subAll r.toList)).length = 0 := by
        have := congrArg String.length heq
        simpa using this
      omega

/-- Witness for C3: a response that is nothing but an action block falls back
to the generic acknowledgment. -/
theorem get_clean_response_fallback_witness :
    get_clean_response "```json {} ```" = fallbackResponse
    ∧ get_clean_response "```json {} ```" ≠ "" := by
  refine ⟨(get_clean_response_fallback "```json {} ```").1 (by decide),
    (get_clean_response_fallback "```json {} ```").2⟩

/-- C4 (confirmed). Appending any non-empty sequence of transcript entries
through `add_to_conversation` leaves exactly the last 20 of the full appended
history, in append (oldest-first) order; the cap holds after every append
since the bound applies to each intermediate state (instantiate the entry
list with any prefix). -/
theorem add_to_conversation_cap :
    ∀ (es : List (String × String × ℤ)) (stored : Option PyDict) (l : List Val),
      convListOf stored = some l → es ≠ [] →
      ∃ d, appendAll stored es = some d
        ∧ d "conversation"
            = some (Val.vArr (lastN 20 (l ++ es.map fun e => convEntry e.1 e.2.1 e.2.2)))
        ∧ (lastN 20 (l ++ es.map fun e => convEntry e.1 e.2.1 e.2.2)).length ≤ 20 := by
  intro es
  induction es with
  | nil => intro stored l h hne; exact absurd rfl hne
  | cons e rest ih =>
    intro stored l h hne
    rw [show appendAll stored (e :: rest)
        = (add_to_conversation stored e.1 e.2.1 e.2.2).bind fun d => appendAll (some d) rest
      from rfl]
    rw [add_to_conversation_step h e.1 e.2.1 e.2.2]
    simp only [Option.some_bind]
    cases hr : rest with
    | nil =>
      refine ⟨_, rfl, ?_, ?_⟩
      · simp only [List.map_cons, List.map_nil]
        rfl
      · simp only [List.map_cons, List.map_nil]
        exact lastN_length_le 20 _
    | cons e2 rest2 =>
      rw [← hr]
      have hconv := convListOf_after_set (stored.getD emptyDict)
        (lastN 20 (l ++ [convEntry e.1 e.2.1 e.2.2])) e.2.2
      obtain ⟨d, hd1, hd2, hd3⟩ := ih (some (set_session (dictSet (stored.getD emptyDict)
          "conversation" (Val.vArr (lastN 20 (l ++ [convEntry e.1 e.2.1 e.2.2])))) e.2.2))
        (lastN 20 (l ++ [convEntry e.1 e.2.1 e.2.2])) hconv (by rw [hr]; simp)
      refine ⟨d, ?_, ?_, ?_⟩
      · rw [show appendAll (some (set_session (dictSet (stored.getD emptyDict) "conversation"
            (Val.vArr (lastN 20 (l ++ [convEntry e.1 e.2.1 e.2.2])))) e.2.2)) rest = some d
          from hd1]
      · rw [hd2, lastN_absorb]
        simp only [List.map_cons, List.append_assoc, List.singleton_append]
      · rw [lastN_absorb] at hd3
        simpa [List.append_assoc] using hd3

/-- Witness for C4: appending 21 entries to an empty session leaves exactly
the most recent 20. -/
theorem add_to_conversation_cap_witness :
    ∃ d, appendAll none ((List.range 21).map fun i => ("user", "hi", (i : ℤ))) = some d
      ∧ d "conversation" = some (Val.vArr (lastN 20 ((([] : List Val)
          ++ ((List.range 21).map fun i => ("user", "hi", (i : ℤ))).map
            fun e => convEntry e.1 e.2.1 e.2.2)))) := by
  obtain ⟨d, h1, h2, _⟩ := add_to_conversation_cap
    ((List.range 21).map fun i => ("user", "hi", (i : ℤ))) none [] rfl (by decide)
  exact ⟨d, h1, h2⟩

/-- C5 (corrected). For a dispatched delivery `create_order`, the address is
resolved command value → customer profile (the session store holds no
address), and the coordinates are resolved session location → customer
profile; an explicit coordinate in the command plays no part. In particular,
when the command omits the address and the session has no location but the
profile has an address, the created order carries the profile address. -/
theorem delivery_fields_resolution :
    (∀ (data : List (String × Val)) (session : PyDict) (cust : Customer)
       (loc : List (String × Val)) (now oid : ℤ),
      objGet data "order_type" = some (Val.vStr "delivery") →
      sessionLocationObj session = some loc →
      ∃ o s', handleCreateOrder data cust session now oid = some (o, s')
        ∧ o.delivery_address = pyOr (objGet data "address") (cust.address.map Val.vStr)
        ∧ o.delivery_latitude = pyOr (objGet loc "latitude") (cust.latitude.map Val.vFloat)
        ∧ o.delivery_longitude = pyOr (objGet loc "longitude") (cust.longitude.map Val.vFloat))
    ∧ ∀ (data : List (String × Val)) (session : PyDict) (cust : Customer) (a : String)
        (now oid : ℤ),
      objGet data "order_type" = some (Val.vStr "delivery") →
      objGet data "address" = none → session "location" = none → cust.address = some a →
      ∃ o s', handleCreateOrder data cust session now oid = some (o, s')
        ∧ o.delivery_address = some (Val.vStr a) := by
  constructor
  · intro data session cust loc now oid hot hloc
    refine ⟨create_order now oid cust.id OrderType.delivery
        ((objGet data "items").getD (Val.vArr []))
        ((objGet data "total_price").getD (Val.vInt 0))
        (pyOr (objGet data "address") (cust.address.map Val.vStr))
        (pyOr (objGet loc "latitude") (cust.latitude.map Val.vFloat))
        (pyOr (objGet loc "longitude") (cust.longitude.map Val.vFloat)),
      update_session (some session)
        (orderSessionUpdates oid ((objGet data "items").getD (Val.vArr []))
          ((objGet data "total_price").getD (Val.vInt 0)) OrderType.delivery now) now,
      ?_, rfl, rfl, rfl⟩
    unfold handleCreateOrder resolveDeliveryFields
    rw [hot, hloc]
    rfl
  · intro data session cust a now oid hot haddr hloc hcust
    have hobj : sessionLocationObj session = some [] := by
      unfold sessionLocationObj
      rw [hloc]
    refine ⟨create_order now oid cust.id OrderType.delivery
        ((objGet data "items").getD (Val.vArr []))
        ((objGet data "total_price").getD (Val.vInt 0))
        (pyOr (objGet data "address") (cust.address.map Val.vStr))
        (pyOr (objGet ([] : List (String × Val)) "latitude") (cust.latitude.map Val.vFloat))
        (pyOr (objGet ([] : List (String × Val)) "longitude") (cust.longitude.map Val.vFloat)),
      update_session (some session)
        (orderSessionUpdates oid ((objGet data "items").getD (Val.vArr []))
          ((objGet data "total_price").getD (Val.vInt 0)) OrderType.delivery now) now,
      ?_, ?_⟩
    · unfold handleCreateOrder resolveDeliveryFields
      rw [hot, hobj]
      rfl
    · show pyOr (objGet data "address") (cust.address.map Val.vStr) = some (Val.vStr a)
      rw [haddr, hcust]
      rfl

/-- Witness for C5: command without address, session without location,
profile with an address — the order uses the profile address. -/
theorem delivery_fields_resolution_witness :
    ∃ o s', handleCreateOrder [("order_type", Val.vStr "delivery")]
        { id := 2, phone_number := "q", name := none, address := some "profile street",
          latitude := none, longitude := none }
        emptyDict 0 1 = some (o, s')
      ∧ o.delivery_address = some (Val.vStr "profile street") := by
  exact delivery_fields_resolution.2 [("order_type", Val.vStr "delivery")] emptyDict
    { id := 2, phone_number := "q", name := none, address := some "profile street",
      latitude := none, longitude := none } "profile street" 0 1 rfl rfl rfl rfl

/-- Counterexample to C5 as stated: the command carries an explicit latitude
(5) and the session a location latitude (6); the claim's priority chain picks
the command's 5, but the dispatched order carries the session's 6. -/
theorem delivery_command_coords_cex :
    (handleCreateOrder cexDeliveryData cexDeliveryCustomer cexDeliverySession 0 1).map
        (fun p => p.1.delivery_latitude) = some (some (Val.vInt 6))
    ∧ specChainLatitude cexDeliveryData cexDeliverySession cexDeliveryCustomer
        = some (Val.vInt 5)
    ∧ (some (Val.vInt 6) : Option Val) ≠ some (Val.vInt 5) := by
  refine ⟨rfl, rfl, by simp⟩

/-- C6 (confirmed). `should_request_feedback` is true exactly when feedback
was not yet requested, no feedback text is stored (absent or empty), a
completion instant exists, and at least the configured delay has elapsed
since it; with the default 30-minute delay, an order completed 31 minutes ago
is eligible and the same order with `feedback_requested` set is not. -/
theorem should_request_feedback_iff :
    (∀ (delay now : ℤ) (o : DbOrder),
      should_request_feedback delay now o = true ↔
        o.feedback_requested = false ∧ (o.feedback = none ∨ o.feedback = some "") ∧
        ∃ t, o.completed_at = some t ∧ 60 * delay ≤ now - t)
    ∧ should_request_feedback defaultFeedbackDelayMinutes 1860 completedOrder = true
    ∧ should_request_feedback defaultFeedbackDelayMinutes 1860 requestedOrder = false := by
  refine ⟨?_, by decide, by decide⟩
  intro delay now o
  unfold should_request_feedback
  cases hfr : o.feedback_requested with
  | true => simp [hfr]
  | false =>
    cases hfb : o.feedback with
    | none =>
      simp only [truthyOptStr, Bool.false_or, if_neg]
      cases hc : o.completed_at with
      | none => simp [hc]
      | some t => simp [hc]
    | some s =>
      by_cases hs : s = ""
      · subst hs
        simp only [truthyOptStr]
        cases hc : o.completed_at with
        | none => simp [hc]
        | some t => simp [hc]
      · simp [truthyOptStr, hs]

/-- C7 (confirmed). `update_session` reads the stored session (or starts
empty) and shallow-merges the partial over it, last writer winning per key
(`last_activity` aside, which C10 covers): `{a:1}` then `{b:2}` leaves `a=1`
and `b=2`, and `{a:3}` after `{a:1}` leaves `a=3`. -/
theorem update_session_merge :
    (∀ (stored : Option PyDict) (updates : PyDict) (now : ℤ) (k : String),
      k ≠ "last_activity" →
      update_session stored updates now k
        = ((updates k).orElse fun _ => (stored.getD emptyDict) k))
    ∧ (∀ now1 now2 : ℤ,
        update_session (some (update_session none (dictSingle "a" (Val.vInt 1)) now1))
          (dictSingle "b" (Val.vInt 2)) now2 "a" = some (Val.vInt 1)
      ∧ update_session (some (update_session none (dictSingle "a" (Val.vInt 1)) now1))
          (dictSingle "b" (Val.vInt 2)) now2 "b" = some (Val.vInt 2))
    ∧ (∀ now1 now2 : ℤ,
        update_session (some (update_session none (dictSingle "a" (Val.vInt 1)) now1))
          (dictSingle "a" (Val.vInt 3)) now2 "a" = some (Val.vInt 3)) := by
  refine ⟨?_, fun now1 now2 => ⟨rfl, rfl⟩, fun now1 now2 => rfl⟩
  intro stored updates now k hk
  unfold update_session set_session dictSet dictUpdate
  rw [if_neg hk]

/-- Witness for C7: the merged value of an ordinary key survives the write. -/
theorem update_session_merge_witness :
    update_session none (dictSingle "a" (Val.vInt 1)) 0 "a" = some (Val.vInt 1) := by
  have h := update_session_merge.1 none (dictSingle "a" (Val.vInt 1)) 0 "a" (by decide)
  rw [h]
  rfl

/-- C8 (corrected). `track_usage` computes the cost from the per-million
token unit prices, converts with the fixed multiplier, and bumps the three
windows with their expiries (90/365/30 days); the daily and monthly windows
accumulate tokens, request count and both currency totals, but the
per-identity window accumulates only the tokens and the display-currency
total — no request count and no base-currency total. -/
theorem track_usage_windows (it ot : ℤ) (st : CostState) :
    track_usage it ot st =
      { daily := specRecordWindow it ot (86400 * 90) st.daily
        monthly := specRecordWindow it ot (86400 * 365) st.monthly
        perUser :=
          { input_tokens := st.perUser.input_tokens + it
            output_tokens := st.perUser.output_tokens + ot
            cost_usd := st.perUser.cost_usd
            cost_pkr := st.perUser.cost_pkr +
              ((it : ℚ) / 1000000 * INPUT_COST_PER_1M + (ot : ℚ) / 1000000 * OUTPUT_COST_PER_1M)
                * USD_TO_PKR
            requests := st.perUser.requests
            expiry := some (86400 * 30) } } := by
  rfl

/-- Counterexample to C8 as stated: after one `track_usage 100 50` call the
per-identity window differs from the claim's all-counter recording — its
request count stays 0 (the claim demands 1) and its base-currency total
stays 0. -/
theorem track_usage_user_window_cex :
    (track_usage 100 50 initialCostState).perUser
        ≠ specRecordWindow 100 50 (86400 * 30) initialCostState.perUser
    ∧ (track_usage 100 50 initialCostState).perUser.requests = 0
    ∧ (specRecordWindow 100 50 (86400 * 30) initialCostState.perUser).requests = 1
    ∧ (track_usage 100 50 initialCostState).perUser.cost_usd = 0
    ∧ (track_usage 100 50 initialCostState).daily.requests = 1 := by
  refine ⟨?_, rfl, rfl, rfl, rfl⟩
  intro h
  have := congrArg UsageWindow.requests h
  simp [track_usage, specRecordWindow, initialCostState, emptyWindow] at this

/-- C9 (confirmed). A dispatched `create_order` yields an order whose
estimated completion is the current instant plus the fixed per-type duration
(dine-in 20, takeaway 15, delivery 45 minutes), and the written session maps
`current_order` to none and `last_order` to the new order's snapshot. -/
theorem create_order_effects :
    ∀ (data : List (String × Val)) (cust : Customer) (session : PyDict) (now oid : ℤ)
      (ot : OrderType),
      orderTypeFromVal (objGet data "order_type") = some ot →
      (ot = OrderType.delivery → (sessionLocationObj session).isSome = true) →
      ∃ o s', handleCreateOrder data cust session now oid = some (o, s')
        ∧ o.estimated_completion_time = some (now + 60 * minutes_map ot)
        ∧ minutes_map OrderType.dine_in = 20 ∧ minutes_map OrderType.takeaway = 15
        ∧ minutes_map OrderType.delivery = 45
        ∧ s' "current_order" = some Val.vNull
        ∧ s' "last_order" = some (Val.vObj [("id", Val.vInt oid),
            ("items", (objGet data "items").getD (Val.vArr [])),
            ("total", (objGet data "total_price").getD (Val.vInt 0)),
            ("type", Val.vStr ot.value), ("created_at", Val.vStr (isoStr now))]) := by
  intro data cust session now oid ot hot hloc
  by_cases hd : ot = OrderType.delivery
  · subst hd
    obtain ⟨loc, hl⟩ := Option.isSome_iff_exists.mp (hloc rfl)
    refine ⟨create_order now oid cust.id OrderType.delivery
        ((objGet data "items").getD (Val.vArr []))
        ((objGet data "total_price").getD (Val.vInt 0))
        (pyOr (objGet data "address") (cust.address.map Val.vStr))
        (pyOr (objGet loc "latitude") (cust.latitude.map Val.vFloat))
        (pyOr (objGet loc "longitude") (cust.longitude.map Val.vFloat)),
      update_session (some session)
        (orderSessionUpdates oid ((objGet data "items").getD (Val.vArr []))
          ((objGet data "total_price").getD (Val.vInt 0)) OrderType.delivery now) now,
      ?_, rfl, rfl, rfl, rfl, rfl, rfl⟩
    unfold handleCreateOrder resolveDeliveryFields
    rw [hot, hl]
    rfl
  · refine ⟨create_order now oid cust.id ot
        ((objGet data "items").getD (Val.vArr []))
        ((objGet data "total_price").getD (Val.vInt 0)) none none none,
      update_session (some session)
        (orderSessionUpdates oid ((objGet data "items").getD (Val.vArr []))
          ((objGet data "total_price").getD (Val.vInt 0)) ot now) now,
      ?_, rfl, rfl, rfl, rfl, rfl, rfl⟩
    unfold handleCreateOrder
    rw [hot]
    simp only [Option.some_bind]
    rw [if_neg hd]
    rfl

/-- Witness for C9: a takeaway order gets completion now+15 minutes and the
session's `current_order` is cleared. -/
theorem create_order_effects_witness :
    ∃ o s', handleCreateOrder [("order_type", Val.vStr "takeaway")]
        cexDeliveryCustomer emptyDict 100 7 = some (o, s')
      ∧ o.estimated_completion_time = some (100 + 60 * 15)
      ∧ s' "current_order" = some Val.vNull := by
  obtain ⟨o, s', h1, h2, _, h4, _, h6, _⟩ :=
    create_order_effects [("order_type", Val.vStr "takeaway")] cexDeliveryCustomer emptyDict
      100 7 OrderType.takeaway rfl (by intro h; cases h)
  exact ⟨o, s', h1, by rw [h2, h4], h6⟩

/-- C10 (confirmed). Every session write stamps `last_activity` with the
write instant, overwriting any caller-supplied value: `update_session` stores
exactly the shallow merge except at that key, and a successful
`add_to_conversation` (which writes through `set_session`) stores the same
stamp. -/
theorem session_write_sets_last_activity :
    (∀ (stored : Option PyDict) (updates : PyDict) (now : ℤ),
      update_session stored updates now = fun k =>
        if k = "last_activity" then some (Val.vStr (isoStr now))
        else (updates k).orElse fun _ => (stored.getD emptyDict) k)
    ∧ (∀ (stored : Option PyDict) (role message : String) (now : ℤ) (d : PyDict),
        add_to_conversation stored role message now = some d →
        d "last_activity" = some (Val.vStr (isoStr now))) := by
  constructor
  · intro stored updates now
    funext k
    unfold update_session set_session dictSet dictUpdate
    by_cases hk : k = "last_activity"
    · rw [if_pos hk]
    · rw [if_neg hk]
  · intro stored role message now d h
    unfold add_to_conversation at h
    cases hc : convListOf stored with
    | none => rw [hc] at h; simp at h
    | some l =>
      rw [hc] at h
      have hd : _ = d := Option.some.inj h
      rw [← hd]
      rfl

/-- Witness for C10: a caller-supplied `last_activity` value is overwritten
with the write instant, on both write paths. -/
theorem session_write_sets_last_activity_witness :
    update_session none (dictSingle "last_activity" (Val.vStr "x")) 5 "last_activity"
        = some (Val.vStr (isoStr 5))
    ∧ ∀ d : PyDict, add_to_conversation none "user" "hi" 5 = some d →
        d "last_activity" = some (Val.vStr (isoStr 5)) := by
  constructor
  · rw [session_write_sets_last_activity.1 none (dictSingle "last_activity" (Val.vStr "x")) 5]
    rfl
  · intro d h
    exact session_write_sets_last_activity.2 none "user" "hi" 5 d h
